import Mathlib

/-!
Shallow embedding of `src/meta_learn/proto/train.py`.

The repository is a thin orchestration script around an external ML
framework.  The framework-supplied operations (forward pass, autodiff,
optimizer update, dataset construction, filesystem, metric writer) are
modelled as abstract parameters; the repository's own logic — the
training loop, the test loop, argument parsing, directory bookkeeping
and metric logging — is translated directly from the source.

Scalar values produced by the framework (losses, accuracies) are
modelled as exact rationals ℚ; tensors are modelled as lists.
-/

namespace MetaLearnProto

/-- One episodic batch as produced by the meta data loader:
`batch["train"] = (support_x, support_y)`, `batch["test"] = (query_x, query_y)`
(`train.py` lines 28–29 / 59–60).  Inputs are abstract tensors (lists of
rationals); labels are natural-number class indices. -/
structure Batch where
  support_x : List ℚ
  support_y : List ℕ
  query_x   : List ℚ
  query_y   : List ℕ
deriving Repr, DecidableEq

/-- The mutable state of the network: its parameter vector and the
gradient buffers (`model.parameters()` and their `.grad` fields). -/
structure Model where
  params : List ℚ
  grads  : List ℚ
deriving Repr, DecidableEq

/-- The framework-delegated numerical operations of `ProtoNetwork`:
`forward params support_x support_y query_x` is the logits tensor
(`model(support_x, support_y, query_x)`, one row of class scores per
query element), and `grad params b` is whatever gradient vector autodiff
produces for the loss of batch `b` at parameters `params`
(`loss.backward()`). -/
structure Arch where
  forward : List ℚ → List ℚ → List ℕ → List ℚ → List (List ℚ)
  grad    : List ℚ → Batch → List ℚ

/-- The framework-delegated optimizer update rule:
`step params grads` is the parameter vector after `optimizer.step()`. -/
structure Optimizer where
  step : List ℚ → List ℚ → List ℚ

/-- `model.zero_grad()` / `optimizer.zero_grad()`: every gradient buffer
is overwritten with zero; parameters are untouched. -/
def zero_grad (m : Model) : Model :=
  { m with grads := m.grads.map (fun _ => (0 : ℚ)) }

/-- `loss.backward()`: autodiff writes the gradient of the current
batch's loss into the (just-zeroed) gradient buffers. -/
def backward (arch : Arch) (b : Batch) (m : Model) : Model :=
  { m with grads := arch.grad m.params b }

/-- `np.mean` on the accumulated python list, in exact arithmetic:
the sum divided by the length. -/
def npMean (l : List ℚ) : ℚ := l.sum / l.length

/-- `torch.argmax(·)` on one row of class scores: the index of the
first maximal entry (0 for an empty row). -/
def argmaxRow (row : List ℚ) : ℕ :=
  (List.range row.length).foldl
    (fun best i => if row.getD i 0 > row.getD best 0 then i else best) 0

/-- `torch.argmax(logits, dim=1)` (`train.py` line 70): one predicted
class index per query element. -/
def argmaxPreds (logits : List (List ℚ)) : List ℕ := logits.map argmaxRow

/-- `torch.mean((test_predictions == query_y).float())`
(`train.py` line 71): the mean of the elementwise 0/1 comparison. -/
def batchAccuracy (preds : List ℕ) (query_y : List ℕ) : ℚ :=
  npMean ((preds.zip query_y).map (fun p => if p.1 = p.2 then (1 : ℚ) else 0))

/-- The loop body and loop of `train` (`train.py` lines 24–45),
with the mutable model and the accumulating `avg_loss` list made
explicit.  Each iteration: `model.zero_grad()`, load the batch, forward
pass, loss, append the detached loss, `optimizer.zero_grad()`,
`loss.backward()`, `optimizer.step()`; then
`if batch_idx > num_batches: break`. -/
def trainLoop (arch : Arch) (loss_fn : List (List ℚ) → List ℕ → ℚ)
    (optimizer : Optimizer) (num_batches : ℕ) :
    List Batch → ℕ → Model → List ℚ → List ℚ × Model
  | [], _, m, avg_loss => (avg_loss, m)
  | b :: rest, batch_idx, m, avg_loss =>
      let m₁ := zero_grad m
      let logits := arch.forward m₁.params b.support_x b.support_y b.query_x
      let loss := loss_fn logits b.query_y
      let avg_loss₁ := avg_loss ++ [loss]
      let m₂ := zero_grad m₁
      let m₃ := backward arch b m₂
      let m₄ : Model := { m₃ with params := optimizer.step m₃.params m₃.grads }
      if batch_idx > num_batches then (avg_loss₁, m₄)
      else trainLoop arch loss_fn optimizer num_batches rest (batch_idx + 1) m₄ avg_loss₁

/-- `train(dataloader, model, loss_fn, optimizer, num_batches)`
(`train.py` lines 21–47): returns `np.mean(avg_loss)`, paired with the
final state of the (mutated) model. -/
def train (arch : Arch) (dataloader : List Batch) (model : Model)
    (loss_fn : List (List ℚ) → List ℕ → ℚ) (optimizer : Optimizer)
    (num_batches : ℕ) : ℚ × Model :=
  let r := trainLoop arch loss_fn optimizer num_batches dataloader 0 model []
  (npMean r.1, r.2)

/-- The loop of `test` (`train.py` lines 54–75), under `torch.no_grad()`:
each iteration zeroes the gradient buffers, runs the forward pass,
appends the detached loss and the batch accuracy, and breaks after the
iteration with `batch_idx > num_batches`. -/
def testLoop (arch : Arch) (loss_fn : List (List ℚ) → List ℕ → ℚ)
    (num_batches : ℕ) :
    List Batch → ℕ → Model → List ℚ → List ℚ → List ℚ × List ℚ × Model
  | [], _, m, accuracy_list, avg_loss => (accuracy_list, avg_loss, m)
  | b :: rest, batch_idx, m, accuracy_list, avg_loss =>
      let m₁ := zero_grad m
      let logits := arch.forward m₁.params b.support_x b.support_y b.query_x
      let loss := loss_fn logits b.query_y
      let avg_loss₁ := avg_loss ++ [loss]
      let test_predictions := argmaxPreds logits
      let accuracy := batchAccuracy test_predictions b.query_y
      let accuracy_list₁ := accuracy_list ++ [accuracy]
      if batch_idx > num_batches then (accuracy_list₁, avg_loss₁, m₁)
      else testLoop arch loss_fn num_batches rest (batch_idx + 1) m₁ accuracy_list₁ avg_loss₁

/-- `test(dataloader, model, loss_fn, num_batches)` (`train.py` lines
50–77): returns `(np.mean(accuracy_list), np.mean(avg_loss))`, paired
with the final state of the model. -/
def test (arch : Arch) (dataloader : List Batch) (model : Model)
    (loss_fn : List (List ℚ) → List ℕ → ℚ) (num_batches : ℕ) :
    (ℚ × ℚ) × Model :=
  let r := testLoop arch loss_fn num_batches dataloader 0 model [] []
  ((npMean r.1, npMean r.2.1), r.2.2)

/-! Spec-side characterisations, stated independently of the
accumulator-passing loops above. -/

/-- The per-batch training losses over a list of batches, threading the
parameter vector through the optimizer update: the loss of each batch is
evaluated at the parameters produced by the updates of all earlier
batches. -/
def lossTrace (arch : Arch) (loss_fn : List (List ℚ) → List ℕ → ℚ)
    (optimizer : Optimizer) : List Batch → List ℚ → List ℚ
  | [], _ => []
  | b :: rest, params =>
      loss_fn (arch.forward params b.support_x b.support_y b.query_x) b.query_y ::
        lossTrace arch loss_fn optimizer rest
          (optimizer.step params (arch.grad params b))

/-- The loss of a single batch at fixed parameters. -/
def batchLossAt (arch : Arch) (loss_fn : List (List ℚ) → List ℕ → ℚ)
    (params : List ℚ) (b : Batch) : ℚ :=
  loss_fn (arch.forward params b.support_x b.support_y b.query_x) b.query_y

/-- The accuracy of a single batch at fixed parameters: the comparison
of argmax predictions with the query labels. -/
def batchAccuracyAt (arch : Arch) (params : List ℚ) (b : Batch) : ℚ :=
  batchAccuracy (argmaxPreds (arch.forward params b.support_x b.support_y b.query_x))
    b.query_y

/-! Concrete instances, used to evaluate the theorems below on closed
inputs. -/

/-- A concrete architecture: two class scores per query entry, and a
constant gradient. -/
def sampleArch : Arch :=
  { forward := fun _ _ _ qx => qx.map (fun v => [v, 1 - v])
    grad := fun p _ => p.map (fun _ => (1 : ℚ)) }

/-- A concrete optimizer: subtract the gradient from the parameters. -/
def sampleOpt : Optimizer :=
  { step := fun p g => (p.zip g).map (fun x => x.1 - x.2) }

/-- A concrete loss function of the logits and labels. -/
def sampleLoss : List (List ℚ) → List ℕ → ℚ :=
  fun logits y => (logits.length : ℚ) + (y.length : ℚ)

/-- A concrete episodic batch. -/
def sampleBatch : Batch :=
  { support_x := [1], support_y := [0], query_x := [0, 1], query_y := [1, 0] }

/-- A concrete initial model. -/
def sampleModel : Model := { params := [1, 2], grads := [0, 0] }

/-! Temporal model of one iteration of the `train` loop
(`train.py` lines 25–45): the sequence of operations the loop body
performs, in source order. -/

/-- The operations of one iteration of the `train` loop body. -/
inductive TrainOp where
  | modelZeroGrad
  | loadBatch
  | toDevice
  | forwardPass
  | computeLoss
  | appendLoss
  | optZeroGrad
  | backwardPass
  | optimizerStep
deriving Repr, DecidableEq

/-- One iteration of the `train` loop body, in the order of
`train.py` lines 26–42: `model.zero_grad()`; unpack `batch["train"]`
and `batch["test"]`; move the four tensors `.to(device)`; forward pass;
loss; append detached loss; `optimizer.zero_grad()`; `loss.backward()`;
`optimizer.step()`. -/
def trainBatchOps : List TrainOp :=
  [TrainOp.modelZeroGrad, TrainOp.loadBatch, TrainOp.toDevice, TrainOp.forwardPass,
   TrainOp.computeLoss, TrainOp.appendLoss, TrainOp.optZeroGrad, TrainOp.backwardPass,
   TrainOp.optimizerStep]

/-- The operation trace of `k` iterations of the `train` loop, each
operation labelled with the index of the batch it belongs to. -/
def trainOpsTrace : ℕ → List (ℕ × TrainOp)
  | 0 => []
  | k + 1 => trainOpsTrace k ++ trainBatchOps.map (fun op => (k, op))

/-! Directory bookkeeping and dataset construction of `main`
(`train.py` lines 87–110).  The filesystem is abstracted as a predicate
on path strings; `os.path.abspath(os.path.join(path, os.pardir))` is
abstracted as the given `parent_dir` string. -/

/-- `data_path = f"{parent_dir}/data/"` (`train.py` line 91). -/
def data_path (parent_dir : String) : String := parent_dir ++ "/data/"

/-- The path whose existence `main` probes:
`f"{data_path}/omniglot"` (`train.py` line 93). -/
def omniglotProbe (parent_dir : String) : String :=
  data_path parent_dir ++ "/omniglot"

/-- The keyword arguments of one `omniglot(...)` dataset-construction
call (`train.py` lines 97–108). -/
structure OmniglotCall where
  folder : String
  shots : ℕ
  ways : ℕ
  shuffle : Bool
  meta_train : Bool
  meta_val : Bool
  download : Bool
deriving Repr, DecidableEq

/-- The two dataset-construction calls `main` makes (`train.py` lines
92–108): `download = True`, overwritten with `False` when the probed
directory exists; the same flag is passed to the meta-train and
meta-val constructors. -/
def datasetCalls (fsExists : String → Bool) (parent_dir : String)
    (shot way : ℕ) : OmniglotCall × OmniglotCall :=
  let download := true
  let download := if fsExists (omniglotProbe parent_dir) then false else download
  ({ folder := data_path parent_dir, shots := shot, ways := way, shuffle := true,
     meta_train := true, meta_val := false, download := download },
   { folder := data_path parent_dir, shots := shot, ways := way, shuffle := true,
     meta_train := false, meta_val := true, download := download })

/-- Collapse every run of consecutive slashes in a character list to a
single slash (POSIX path equivalence). -/
def squashSlashes : List Char → List Char
  | [] => []
  | [c] => [c]
  | a :: b :: rest =>
      if a = '/' ∧ b = '/' then squashSlashes (b :: rest)
      else a :: squashSlashes (b :: rest)

/-- Normalise a path string by collapsing repeated slashes. -/
def normalizePath (s : String) : String := String.mk (squashSlashes s.data)

/-! The command-line interface (`train.py` lines 133–140). -/

/-- The `type=` of an `add_argument` call. -/
inductive ArgType where
  | int
  | str
deriving Repr, DecidableEq

/-- The `default=` of an `add_argument` call. -/
inductive ArgDefault where
  | ofInt (n : ℤ)
  | ofStr (s : String)
deriving Repr, DecidableEq

/-- One `parser.add_argument(flag, type=..., default=...)` call. -/
structure ArgSpec where
  flag : String
  type : ArgType
  default : ArgDefault
deriving Repr, DecidableEq

/-- The seven `add_argument` calls of `train.py` lines 134–140, in
source order; `os.getcwd()` is abstracted as `cwd`. -/
def cliArgs (cwd : String) : List ArgSpec :=
  [ { flag := "--num_classes", type := ArgType.int, default := ArgDefault.ofInt 5 },
    { flag := "--num_samples", type := ArgType.int, default := ArgDefault.ofInt 1 },
    { flag := "--num_batches", type := ArgType.int, default := ArgDefault.ofInt 500 },
    { flag := "--batch_size", type := ArgType.int, default := ArgDefault.ofInt 32 },
    { flag := "--epochs", type := ArgType.int, default := ArgDefault.ofInt 100 },
    { flag := "--log_every", type := ArgType.int, default := ArgDefault.ofInt 1 },
    { flag := "--path", type := ArgType.str, default := ArgDefault.ofStr cwd } ]

/-! The epoch loop of `main` (`train.py` lines 119–129), with the
metric writer modelled as a list of emitted scalar events. -/

/-- A Python exception relevant to this script. -/
inductive PyError where
  | zeroDivisionError
deriving Repr, DecidableEq

/-- Python's `%` on integers: floored modulo (`a - b * (a // b)` with
floor division); `ZeroDivisionError` when the divisor is zero. -/
def pyMod (a b : ℤ) : Except PyError ℤ :=
  if b = 0 then Except.error PyError.zeroDivisionError
  else Except.ok (a - b * Int.fdiv a b)

/-- The test `t % config.log_every == 0` of `train.py` line 124. -/
def shouldLog (t : ℕ) (log_every : ℤ) : Except PyError Bool :=
  (pyMod (t : ℤ) log_every).map (fun r => r == 0)

/-- `logdir = "{}/{}/_{}_{}".format(path, "model", config.num_classes, 1)`
(`train.py` line 87). -/
def logdir (path : String) (num_classes : ℕ) : String :=
  path ++ "/" ++ "model" ++ "/_" ++ toString num_classes ++ "_" ++ toString (1 : ℕ)

/-- One `writer.add_scalar(tag, value, step)` call. -/
structure ScalarEvent where
  tag : String
  value : ℚ
  step : ℕ
deriving Repr, DecidableEq

/-- The body of one epoch `t` of `main` (`train.py` lines 119–129):
train; if `t % log_every == 0`, test and emit the three scalar events
in source order, else emit none.  The model threads through `train`
(and through `test` when it runs). -/
def epochStep (arch : Arch) (lf : List (List ℚ) → List ℕ → ℚ) (opt : Optimizer)
    (trainloader testloader : List Batch) (nb : ℕ) (log_every : ℤ)
    (t : ℕ) (m : Model) : Except PyError (List ScalarEvent × Model) :=
  let r := train arch trainloader m lf opt nb
  match shouldLog t log_every with
  | Except.error e => Except.error e
  | Except.ok true =>
      let s := test arch testloader r.2 lf nb
      Except.ok ([⟨"Train Loss", r.1, t⟩, ⟨"Test Loss", s.1.2, t⟩,
                  ⟨"Meta-Test Accuracy", s.1.1, t⟩], s.2)
  | Except.ok false => Except.ok ([], r.2)

/-- The epoch loop `for t in range(epochs)` of `main`, from epoch `t`
with `r` epochs remaining, collecting all emitted scalar events; a
raised exception aborts the loop. -/
def mainLoopFrom (arch : Arch) (lf : List (List ℚ) → List ℕ → ℚ) (opt : Optimizer)
    (trainloader testloader : List Batch) (nb : ℕ) (log_every : ℤ) :
    ℕ → ℕ → Model → Except PyError (List ScalarEvent × Model)
  | _, 0, m => Except.ok ([], m)
  | t, r + 1, m =>
      match epochStep arch lf opt trainloader testloader nb log_every t m with
      | Except.error e => Except.error e
      | Except.ok res =>
          match mainLoopFrom arch lf opt trainloader testloader nb log_every
              (t + 1) r res.2 with
          | Except.error e => Except.error e
          | Except.ok rest => Except.ok (res.1 ++ rest.1, rest.2)

/-! Error propagation (`train.py` has no `try`/`except`): the same
loops with the framework calls allowed to raise.  The error type `ε` is
abstract — whatever the underlying libraries raise. -/

/-- The framework operations of `Arch`, fallible. -/
structure ArchE (ε : Type) where
  forward : List ℚ → List ℚ → List ℕ → List ℚ → Except ε (List (List ℚ))
  grad    : List ℚ → Batch → Except ε (List ℚ)

/-- The optimizer update, fallible. -/
structure OptimizerE (ε : Type) where
  step : List ℚ → List ℚ → Except ε (List ℚ)

/-- `trainLoop` over fallible framework calls: the loop body contains
no handler, so the first raised error is returned unchanged. -/
def trainLoopE {ε : Type} (arch : ArchE ε) (lf : List (List ℚ) → List ℕ → ℚ)
    (opt : OptimizerE ε) (nb : ℕ) :
    List Batch → ℕ → Model → List ℚ → Except ε (List ℚ × Model)
  | [], _, m, avg_loss => Except.ok (avg_loss, m)
  | b :: rest, batch_idx, m, avg_loss =>
      let m₁ := zero_grad m
      match arch.forward m₁.params b.support_x b.support_y b.query_x with
      | Except.error e => Except.error e
      | Except.ok logits =>
          let avg_loss₁ := avg_loss ++ [lf logits b.query_y]
          let m₂ := zero_grad m₁
          match arch.grad m₂.params b with
          | Except.error e => Except.error e
          | Except.ok g =>
              let m₃ : Model := { m₂ with grads := g }
              match opt.step m₃.params m₃.grads with
              | Except.error e => Except.error e
              | Except.ok p =>
                  let m₄ : Model := { m₃ with params := p }
                  if batch_idx > nb then Except.ok (avg_loss₁, m₄)
                  else trainLoopE arch lf opt nb rest (batch_idx + 1) m₄ avg_loss₁

/-- `train` over fallible framework calls. -/
def trainE {ε : Type} (arch : ArchE ε) (dataloader : List Batch) (model : Model)
    (lf : List (List ℚ) → List ℕ → ℚ) (opt : OptimizerE ε) (nb : ℕ) :
    Except ε (ℚ × Model) :=
  (trainLoopE arch lf opt nb dataloader 0 model []).map (fun r => (npMean r.1, r.2))

/-- `testLoop` over fallible framework calls. -/
def testLoopE {ε : Type} (arch : ArchE ε) (lf : List (List ℚ) → List ℕ → ℚ)
    (nb : ℕ) :
    List Batch → ℕ → Model → List ℚ → List ℚ → Except ε (List ℚ × List ℚ × Model)
  | [], _, m, accuracy_list, avg_loss => Except.ok (accuracy_list, avg_loss, m)
  | b :: rest, batch_idx, m, accuracy_list, avg_loss =>
      let m₁ := zero_grad m
      match arch.forward m₁.params b.support_x b.support_y b.query_x with
      | Except.error e => Except.error e
      | Except.ok logits =>
          let avg_loss₁ := avg_loss ++ [lf logits b.query_y]
          let accuracy_list₁ :=
            accuracy_list ++ [batchAccuracy (argmaxPreds logits) b.query_y]
          if batch_idx > nb then Except.ok (accuracy_list₁, avg_loss₁, m₁)
          else testLoopE arch lf nb rest (batch_idx + 1) m₁ accuracy_list₁ avg_loss₁

/-- `test` over fallible framework calls. -/
def testE {ε : Type} (arch : ArchE ε) (dataloader : List Batch) (model : Model)
    (lf : List (List ℚ) → List ℕ → ℚ) (nb : ℕ) :
    Except ε ((ℚ × ℚ) × Model) :=
  (testLoopE arch lf nb dataloader 0 model [] []).map
    (fun r => ((npMean r.1, npMean r.2.1), r.2.2))

/-- A total framework, seen as a fallible one that never raises. -/
def liftArch {ε : Type} (arch : Arch) : ArchE ε :=
  { forward := fun p sx sy qx => Except.ok (arch.forward p sx sy qx)
    grad := fun p b => Except.ok (arch.grad p b) }

/-- A total optimizer, seen as a fallible one that never raises. -/
def liftOpt {ε : Type} (opt : Optimizer) : OptimizerE ε :=
  { step := fun p g => Except.ok (opt.step p g) }

/-- A framework whose forward pass always raises error `7`. -/
def failArch : ArchE ℕ :=
  { forward := fun _ _ _ _ => Except.error 7
    grad := fun _ _ => Except.error 7 }

/-- An optimizer step that never raises. -/
def okOpt : OptimizerE ℕ := { step := fun p _ => Except.ok p }

/-! Basic lemmas about the loop bodies. -/

@[simp] lemma zero_grad_params (m : Model) : (zero_grad m).params = m.params := rfl

@[simp] lemma backward_params (arch : Arch) (b : Batch) (m : Model) :
    (backward arch b m).params = m.params := rfl

@[simp] lemma backward_grads (arch : Arch) (b : Batch) (m : Model) :
    (backward arch b m).grads = arch.grad m.params b := rfl

@[simp] lemma lossTrace_nil (arch : Arch) (lf : List (List ℚ) → List ℕ → ℚ)
    (opt : Optimizer) (p : List ℚ) : lossTrace arch lf opt [] p = [] := rfl

lemma lossTrace_length (arch : Arch) (lf : List (List ℚ) → List ℕ → ℚ)
    (opt : Optimizer) :
    ∀ (dl : List Batch) (p : List ℚ), (lossTrace arch lf opt dl p).length = dl.length := by
  intro dl
  induction dl with
  | nil => intro p; rfl
  | cons b rest ih =>
      intro p
      simp [lossTrace, ih]

/-- The accumulated loss list of `trainLoop`, started at index `i ≤
num_batches + 1`, is the accumulator followed by the loss trace of the
first `num_batches + 2 - i` remaining batches. -/
lemma trainLoop_losses (arch : Arch) (lf : List (List ℚ) → List ℕ → ℚ)
    (opt : Optimizer) (nb : ℕ) :
    ∀ (dl : List Batch) (i : ℕ) (m : Model) (acc : List ℚ), i ≤ nb + 1 →
      (trainLoop arch lf opt nb dl i m acc).1
        = acc ++ lossTrace arch lf opt (dl.take (nb + 2 - i)) m.params := by
  intro dl
  induction dl with
  | nil => intro i m acc _; simp [trainLoop]
  | cons b rest ih =>
      intro i m acc hi
      by_cases hgt : i > nb
      · have hi1 : i = nb + 1 := by omega
        have htake : nb + 2 - i = 1 := by omega
        simp only [trainLoop, hgt, if_pos, htake, List.take_succ_cons, List.take_zero]
        simp [lossTrace]
      · have hsub : nb + 2 - i = (nb + 2 - (i + 1)) + 1 := by omega
        simp only [trainLoop, hgt, if_neg, if_false]
        rw [ih (i + 1) _ _ (by omega), hsub, List.take_succ_cons]
        simp [lossTrace, zero_grad, backward, List.append_assoc]

/-- `testLoop`, started at index `i ≤ num_batches + 1`: the accuracy
list and loss list are maps of the per-batch accuracy/loss at the
(unchanged) parameters over the consumed prefix, and the parameters of
the returned model are those of the input model. -/
lemma testLoop_spec (arch : Arch) (lf : List (List ℚ) → List ℕ → ℚ) (nb : ℕ) :
    ∀ (dl : List Batch) (i : ℕ) (m : Model) (accs losses : List ℚ), i ≤ nb + 1 →
      (testLoop arch lf nb dl i m accs losses).1
          = accs ++ (dl.take (nb + 2 - i)).map (batchAccuracyAt arch m.params)
        ∧ (testLoop arch lf nb dl i m accs losses).2.1
          = losses ++ (dl.take (nb + 2 - i)).map (batchLossAt arch lf m.params)
        ∧ (testLoop arch lf nb dl i m accs losses).2.2.params = m.params := by
  intro dl
  induction dl with
  | nil => intro i m accs losses _; simp [testLoop]
  | cons b rest ih =>
      intro i m accs losses hi
      by_cases hgt : i > nb
      · have htake : nb + 2 - i = 1 := by omega
        simp only [testLoop, hgt, if_pos, htake, List.take_succ_cons, List.take_zero]
        simp [batchAccuracyAt, batchLossAt]
      · have hsub : nb + 2 - i = (nb + 2 - (i + 1)) + 1 := by omega
        simp only [testLoop, hgt, if_neg, if_false]
        obtain ⟨h1, h2, h3⟩ := ih (i + 1) (zero_grad m) _ _ (by omega)
        refine ⟨?_, ?_, ?_⟩
        · rw [h1, hsub, List.take_succ_cons]
          simp [batchAccuracyAt, List.append_assoc]
        · rw [h2, hsub, List.take_succ_cons]
          simp [batchLossAt, List.append_assoc]
        · rw [h3]; rfl

/-- The sum of an elementwise 0/1 comparison list is the number of
matching positions. -/
lemma sum_ite_eq_countP (l : List (ℕ × ℕ)) :
    ((l.map (fun p => if p.1 = p.2 then (1 : ℚ) else 0)).sum)
      = (l.countP (fun p => p.1 = p.2) : ℚ) := by
  induction l with
  | nil => simp
  | cons a t ih =>
      simp only [List.map_cons, List.sum_cons, List.countP_cons, ih]
      by_cases h : a.1 = a.2
      · simp [h]; ring
      · simp [h]

/-- `batchAccuracy` is the fraction of matching predictions when
predictions and labels agree in length. -/
lemma batchAccuracy_fraction (preds y : List ℕ) (h : preds.length = y.length) :
    batchAccuracy preds y
      = ((preds.zip y).countP (fun p => p.1 = p.2) : ℚ) / (y.length : ℚ) := by
  unfold batchAccuracy npMean
  rw [sum_ite_eq_countP]
  simp [List.length_zip, h]

/-! Lemmas about the operation trace. -/

lemma trainOpsTrace_length (k : ℕ) : (trainOpsTrace k).length = 9 * k := by
  induction k with
  | zero => rfl
  | succ k ih => simp [trainOpsTrace, ih, trainBatchOps]; omega

lemma trainOpsTrace_getElem (k i j : ℕ) (hik : i < k) (hj : j < 9) :
    (trainOpsTrace k)[9 * i + j]? = (trainBatchOps.map (fun op => (i, op)))[j]? := by
  induction k with
  | zero => omega
  | succ k ih =>
      rw [trainOpsTrace, List.getElem?_append]
      rcases Nat.lt_or_ge i k with hik' | hik'
      · rw [if_pos, ih hik']
        rw [trainOpsTrace_length]
        omega
      · have hik'' : i = k := by omega
        subst hik''
        rw [if_neg, trainOpsTrace_length]
        · congr 1
          omega
        · rw [trainOpsTrace_length]
          omega

/-! Lemmas about path normalisation. -/

lemma squashSlashes_append (ys : List Char) :
    ∀ xs : List Char,
      squashSlashes (xs ++ '/' :: '/' :: ys) = squashSlashes (xs ++ '/' :: ys) := by
  intro xs
  induction xs with
  | nil => simp [squashSlashes]
  | cons x xs ih =>
      cases xs with
      | nil =>
          by_cases hx : x = '/'
          · subst hx; simp [squashSlashes]
          · simp [squashSlashes, hx]
      | cons x' xs' =>
          simp only [List.cons_append] at ih ⊢
          rw [squashSlashes, squashSlashes]
          split
          · exact ih
          · rw [ih]

lemma normalizePath_probe (parent_dir : String) :
    normalizePath (omniglotProbe parent_dir)
      = normalizePath (parent_dir ++ "/data/omniglot") := by
  unfold normalizePath omniglotProbe data_path
  congr 1
  have h1 : (parent_dir ++ "/data/" ++ "/omniglot").data
      = (parent_dir.data ++ "/data".data) ++ '/' :: '/' :: "omniglot".data := by
    simp [String.data_append]
  have h2 : (parent_dir ++ "/data/omniglot").data
      = (parent_dir.data ++ "/data".data) ++ '/' :: "omniglot".data := by
    simp [String.data_append]
  rw [h1, h2, squashSlashes_append]

/-! Lemmas about `shouldLog` and the epoch loop. -/

lemma shouldLog_pos (t : ℕ) (le : ℤ) (h : 1 ≤ le) :
    shouldLog t le = Except.ok (decide (t % le.toNat = 0)) := by
  have h0 : le ≠ 0 := by omega
  have hnn : 0 ≤ le := by omega
  unfold shouldLog pyMod
  rw [if_neg h0, Int.fdiv_eq_ediv _ hnn]
  have hmod : (t : ℤ) - le * ((t : ℤ) / le) = (t : ℤ) % le := (Int.emod_def _ _).symm
  rw [hmod]
  show Except.ok (((t : ℤ) % le) == 0) = Except.ok (decide (t % le.toNat = 0))
  have hcast : (t : ℤ) % le = ((t % le.toNat : ℕ) : ℤ) := by
    conv_lhs => rw [show le = ((le.toNat : ℕ) : ℤ) from (Int.toNat_of_nonneg hnn).symm]
    rw [← Int.natCast_mod]
  rw [hcast]
  cases hz : t % le.toNat with
  | zero => rfl
  | succ n => rfl

lemma shouldLog_zero_divisor (t : ℕ) :
    shouldLog t 0 = Except.error PyError.zeroDivisionError := rfl

/-- The `(tag, step)` projection of the scalar events emitted by the
epoch loop started at epoch `t` with `r` epochs remaining: three fixed
tags at each logging epoch, nothing at any other epoch. -/
lemma mainLoopFrom_events (arch : Arch) (lf : List (List ℚ) → List ℕ → ℚ)
    (opt : Optimizer) (trl tel : List Batch) (nb : ℕ) (le : ℤ) (h : 1 ≤ le) :
    ∀ (r t : ℕ) (m : Model), ∃ evs mfin,
      mainLoopFrom arch lf opt trl tel nb le t r m = Except.ok (evs, mfin)
      ∧ evs.map (fun e => (e.tag, e.step))
          = ((List.range' t r).filter (fun u => u % le.toNat == 0)).flatMap
              (fun u => [("Train Loss", u), ("Test Loss", u), ("Meta-Test Accuracy", u)]) := by
  intro r
  induction r with
  | zero =>
      intro t m
      exact ⟨[], m, rfl, by simp⟩
  | succ r ih =>
      intro t m
      by_cases hc : t % le.toNat = 0
      · have hd : decide (t % le.toNat = 0) = true := by simp [hc]
        obtain ⟨evs, mfin, heq, hmap⟩ :=
          ih (t + 1) (test arch tel (train arch trl m lf opt nb).2 lf nb).2
        refine ⟨[⟨"Train Loss", (train arch trl m lf opt nb).1, t⟩,
                 ⟨"Test Loss", (test arch tel (train arch trl m lf opt nb).2 lf nb).1.2, t⟩,
                 ⟨"Meta-Test Accuracy",
                  (test arch tel (train arch trl m lf opt nb).2 lf nb).1.1, t⟩] ++ evs,
                mfin, ?_, ?_⟩
        · simp only [mainLoopFrom, epochStep, shouldLog_pos _ _ h, hd]
          rw [heq]
        · rw [List.map_append, hmap, List.range'_succ, List.filter_cons]
          simp [hc]
      · have hd : decide (t % le.toNat = 0) = false := by simp [hc]
        obtain ⟨evs, mfin, heq, hmap⟩ :=
          ih (t + 1) (train arch trl m lf opt nb).2
        refine ⟨evs, mfin, ?_, ?_⟩
        · simp only [mainLoopFrom, epochStep, shouldLog_pos _ _ h, hd]
          rw [heq]
          simp
        · rw [List.range'_succ, List.filter_cons]
          simp [hc, hmap]

/-! Lemmas about the fallible loops. -/

lemma trainLoopE_lift {ε : Type} (arch : Arch) (lf : List (List ℚ) → List ℕ → ℚ)
    (opt : Optimizer) (nb : ℕ) :
    ∀ (dl : List Batch) (i : ℕ) (m : Model) (acc : List ℚ),
      trainLoopE (liftArch (ε := ε) arch) lf (liftOpt opt) nb dl i m acc
        = Except.ok (trainLoop arch lf opt nb dl i m acc) := by
  intro dl
  induction dl with
  | nil => intro i m acc; rfl
  | cons b rest ih =>
      intro i m acc
      rw [trainLoopE, trainLoop]
      simp only [liftArch, liftOpt]
      split
      · rfl
      · exact ih _ _ _

lemma testLoopE_lift {ε : Type} (arch : Arch) (lf : List (List ℚ) → List ℕ → ℚ)
    (nb : ℕ) :
    ∀ (dl : List Batch) (i : ℕ) (m : Model) (accs losses : List ℚ),
      testLoopE (liftArch (ε := ε) arch) lf nb dl i m accs losses
        = Except.ok (testLoop arch lf nb dl i m accs losses) := by
  intro dl
  induction dl with
  | nil => intro i m accs losses; rfl
  | cons b rest ih =>
      intro i m accs losses
      rw [testLoopE, testLoop]
      simp only [liftArch]
      split
      · rfl
      · exact ih _ _ _ _

/-! The claims. -/

/-- C1: for every nonempty sequence of batches yielded by the
dataloader, `train` returns the arithmetic mean (sum divided by length)
of the per-batch detached loss values it accumulated over its loop, and
`test` returns the pair (arithmetic mean of per-batch accuracies,
arithmetic mean of per-batch losses), where each batch's accuracy is
the fraction of argmax predictions equal to the query labels. -/
theorem train_test_return_means (arch : Arch) (lf : List (List ℚ) → List ℕ → ℚ)
    (opt : Optimizer) (nb : ℕ) (dl : List Batch) (m : Model) (_hne : dl ≠ []) :
    ((train arch dl m lf opt nb).1
        = (lossTrace arch lf opt (dl.take (nb + 2)) m.params).sum
          / (lossTrace arch lf opt (dl.take (nb + 2)) m.params).length)
    ∧ ((test arch dl m lf nb).1.1
        = ((dl.take (nb + 2)).map (batchAccuracyAt arch m.params)).sum
          / ((dl.take (nb + 2)).map (batchAccuracyAt arch m.params)).length)
    ∧ ((test arch dl m lf nb).1.2
        = ((dl.take (nb + 2)).map (batchLossAt arch lf m.params)).sum
          / ((dl.take (nb + 2)).map (batchLossAt arch lf m.params)).length)
    ∧ (∀ (logits : List (List ℚ)) (y : List ℕ),
        (argmaxPreds logits).length = y.length →
        batchAccuracy (argmaxPreds logits) y
          = (((argmaxPreds logits).zip y).countP (fun p => p.1 = p.2) : ℚ)
            / (y.length : ℚ)) := by
  refine ⟨?_, ?_, ?_, ?_⟩
  · show npMean (trainLoop arch lf opt nb dl 0 m []).1 = _
    rw [trainLoop_losses arch lf opt nb dl 0 m [] (by omega)]
    simp [npMean]
  · show npMean (testLoop arch lf nb dl 0 m [] []).1 = _
    rw [(testLoop_spec arch lf nb dl 0 m [] [] (by omega)).1]
    simp [npMean]
  · show npMean (testLoop arch lf nb dl 0 m [] []).2.1 = _
    rw [(testLoop_spec arch lf nb dl 0 m [] [] (by omega)).2.1]
    simp [npMean]
  · intro logits y hlen
    exact batchAccuracy_fraction _ _ hlen

/-- Witness for C1 at a concrete architecture, optimizer, loss, batch
and model. -/
theorem train_test_return_means_witness :
    (([sampleBatch] : List Batch) ≠ [])
    ∧ (train sampleArch [sampleBatch] sampleModel sampleLoss sampleOpt 0).1
        = (lossTrace sampleArch sampleLoss sampleOpt
            ([sampleBatch].take 2) sampleModel.params).sum
          / (lossTrace sampleArch sampleLoss sampleOpt
              ([sampleBatch].take 2) sampleModel.params).length :=
  ⟨List.cons_ne_nil _ _,
   (train_test_return_means sampleArch sampleLoss sampleOpt 0 [sampleBatch]
      sampleModel (List.cons_ne_nil _ _)).1⟩

/-- C2: the `if batch_idx > num_batches: break` tests in `train` and
`test` fire only after the batch with index `num_batches + 1` has been
processed, so a dataloader yielding at least `num_batches + 2` batches
has exactly `num_batches + 2` of them processed (not `num_batches`),
and a shorter dataloader is consumed entirely. -/
theorem loops_process_num_batches_plus_two (arch : Arch)
    (lf : List (List ℚ) → List ℕ → ℚ) (opt : Optimizer) (nb : ℕ)
    (dl : List Batch) (m : Model) :
    ((trainLoop arch lf opt nb dl 0 m []).1.length = min dl.length (nb + 2))
    ∧ ((testLoop arch lf nb dl 0 m [] []).1.length = min dl.length (nb + 2))
    ∧ (nb + 2 ≤ dl.length → (trainLoop arch lf opt nb dl 0 m []).1.length = nb + 2)
    ∧ (dl.length < nb + 2 → (trainLoop arch lf opt nb dl 0 m []).1.length = dl.length) := by
  have htr : (trainLoop arch lf opt nb dl 0 m []).1.length = min dl.length (nb + 2) := by
    rw [trainLoop_losses arch lf opt nb dl 0 m [] (by omega)]
    simp [lossTrace_length, Nat.min_comm]
  have hte : (testLoop arch lf nb dl 0 m [] []).1.length = min dl.length (nb + 2) := by
    rw [(testLoop_spec arch lf nb dl 0 m [] [] (by omega)).1]
    simp [Nat.min_comm]
  exact ⟨htr, hte, fun h => by omega, fun h => by omega⟩

/-- Witness for C2: with `num_batches = 1` and three available batches,
all three are consumed (`min 3 3`). -/
theorem loops_process_num_batches_plus_two_witness :
    (1 + 2 ≤ ([sampleBatch, sampleBatch, sampleBatch] : List Batch).length)
    ∧ (trainLoop sampleArch sampleLoss sampleOpt 1
        [sampleBatch, sampleBatch, sampleBatch] 0 sampleModel []).1.length = 1 + 2 :=
  ⟨by decide,
   (loops_process_num_batches_plus_two sampleArch sampleLoss sampleOpt 1
      [sampleBatch, sampleBatch, sampleBatch] sampleModel).2.2.1 (by decide)⟩

/-- C3: within one iteration of the `train` loop the operations occur
in source order — load and move the batch to the device, forward pass,
loss, zero the gradients, back-propagate, optimizer step — and in the
full trace of `k` iterations, the optimizer step of batch `i` occurs at
a strictly later position than that batch's loss computation. -/
theorem train_batch_operation_order (k i : ℕ) (hik : i < k) :
    (trainBatchOps.indexOf TrainOp.loadBatch < trainBatchOps.indexOf TrainOp.toDevice
      ∧ trainBatchOps.indexOf TrainOp.toDevice < trainBatchOps.indexOf TrainOp.forwardPass
      ∧ trainBatchOps.indexOf TrainOp.forwardPass < trainBatchOps.indexOf TrainOp.computeLoss
      ∧ trainBatchOps.indexOf TrainOp.computeLoss < trainBatchOps.indexOf TrainOp.optZeroGrad
      ∧ trainBatchOps.indexOf TrainOp.optZeroGrad < trainBatchOps.indexOf TrainOp.backwardPass
      ∧ trainBatchOps.indexOf TrainOp.backwardPass < trainBatchOps.indexOf TrainOp.optimizerStep)
    ∧ ((trainOpsTrace k)[9 * i + 4]? = some (i, TrainOp.computeLoss)
      ∧ (trainOpsTrace k)[9 * i + 8]? = some (i, TrainOp.optimizerStep)
      ∧ 9 * i + 4 < 9 * i + 8) := by
  refine ⟨by decide, ?_, ?_, by omega⟩
  · rw [trainOpsTrace_getElem k i 4 hik (by omega)]
    rfl
  · rw [trainOpsTrace_getElem k i 8 hik (by omega)]
    rfl

/-- Witness for C3 in a trace of two iterations. -/
theorem train_batch_operation_order_witness :
    (0 : ℕ) < 2 ∧ (trainOpsTrace 2)[9 * 0 + 4]? = some (0, TrainOp.computeLoss) :=
  ⟨by decide, (train_batch_operation_order 2 0 (by decide)).2.1⟩

/-- C4: `main` passes `download=True` to both dataset constructors
exactly when the probed directory `<parent of --path>/data//omniglot`
does not exist; when it exists both receive `download=False`; and the
probed path is, after collapsing the doubled slash, exactly
`<parent of --path>/data/omniglot`. -/
theorem download_iff_not_exists (fsExists : String → Bool) (parent_dir : String)
    (shot way : ℕ) :
    ((datasetCalls fsExists parent_dir shot way).1.download = true
       ↔ fsExists (omniglotProbe parent_dir) = false)
    ∧ (datasetCalls fsExists parent_dir shot way).2.download
        = (datasetCalls fsExists parent_dir shot way).1.download
    ∧ (fsExists (omniglotProbe parent_dir) = true
        → (datasetCalls fsExists parent_dir shot way).1.download = false)
    ∧ normalizePath (omniglotProbe parent_dir)
        = normalizePath (parent_dir ++ "/data/omniglot") := by
  refine ⟨?_, ?_, ?_, normalizePath_probe parent_dir⟩
  · unfold datasetCalls
    cases h : fsExists (omniglotProbe parent_dir) <;> simp [h]
  · unfold datasetCalls
    cases h : fsExists (omniglotProbe parent_dir) <;> simp [h]
  · intro h
    unfold datasetCalls
    simp [h]

/-- Witness for C4 on a filesystem where the probed directory exists. -/
theorem download_iff_not_exists_witness :
    ((fun _ : String => true) (omniglotProbe ("/w")) = true)
    ∧ (datasetCalls (fun _ : String => true) ("/w") 1 5).1.download = false :=
  ⟨rfl, (download_iff_not_exists (fun _ : String => true) ("/w") 1 5).2.2.1 rfl⟩

/-- C5: the command-line interface consists of exactly the seven flags
`--num_classes`, `--num_samples`, `--num_batches`, `--batch_size`,
`--epochs`, `--log_every` (integer-typed, each with an integer default)
and `--path` (string-typed, defaulting to the working directory), and a
string is an accepted flag iff it is one of those seven. -/
theorem cli_flags_spec (cwd : String) :
    (cliArgs cwd).map ArgSpec.flag
        = ["--num_classes", "--num_samples", "--num_batches", "--batch_size",
           "--epochs", "--log_every", "--path"]
    ∧ (cliArgs cwd).length = 7
    ∧ (∀ a ∈ cliArgs cwd, a.flag ≠ "--path" →
        a.type = ArgType.int ∧ ∃ n : ℤ, a.default = ArgDefault.ofInt n)
    ∧ (∀ a ∈ cliArgs cwd,
        a.flag = "--path" → a.type = ArgType.str ∧ a.default = ArgDefault.ofStr cwd)
    ∧ (∀ s : String, (∃ a ∈ cliArgs cwd, a.flag = s) ↔
        s ∈ ["--num_classes", "--num_samples", "--num_batches", "--batch_size",
             "--epochs", "--log_every", "--path"]) := by
  refine ⟨rfl, rfl, ?_, ?_, ?_⟩
  · intro a ha hp
    simp only [cliArgs, List.mem_cons, List.not_mem_nil, or_false] at ha
    rcases ha with h | h | h | h | h | h | h <;> subst h <;>
      first
        | exact ⟨rfl, _, rfl⟩
        | exact absurd rfl hp
  · intro a ha hp
    simp only [cliArgs, List.mem_cons, List.not_mem_nil, or_false] at ha
    rcases ha with h | h | h | h | h | h | h <;> subst h <;>
      first
        | exact ⟨rfl, rfl⟩
        | exact absurd hp (by decide)
  · intro s
    constructor
    · rintro ⟨a, ha, rfl⟩
      simp only [cliArgs, List.mem_cons, List.not_mem_nil, or_false] at ha
      rcases ha with h | h | h | h | h | h | h <;> subst h <;> simp
    · intro hs
      simp only [List.mem_cons, List.not_mem_nil, or_false] at hs
      rcases hs with h | h | h | h | h | h | h <;> subst h <;>
        simp [cliArgs]

/-- Witness for C5 at a concrete working directory. -/
theorem cli_flags_spec_witness :
    (cliArgs ("/w")).map ArgSpec.flag
        = ["--num_classes", "--num_samples", "--num_batches", "--batch_size",
           "--epochs", "--log_every", "--path"]
    ∧ (cliArgs ("/w")).length = 7 :=
  ⟨(cli_flags_spec ("/w")).1, (cli_flags_spec ("/w")).2.1⟩

/-- C6: for positive `log_every` the epoch loop of `main` succeeds, and
the scalar events it writes are exactly three per logging epoch `t` —
tagged `Train Loss`, `Test Loss` and `Meta-Test Accuracy`, each with
step `t`, in that order — and none at any other epoch; the metrics
writer is rooted at `<path>/model/_<num_classes>_1`. -/
theorem logging_epochs_write_three_scalars (arch : Arch)
    (lf : List (List ℚ) → List ℕ → ℚ) (opt : Optimizer)
    (trl tel : List Batch) (nb : ℕ) (path : String) (num_classes : ℕ)
    (epochs : ℕ) (le : ℤ) (m : Model) (h : 1 ≤ le) :
    (∃ evs mfin,
      mainLoopFrom arch lf opt trl tel nb le 0 epochs m = Except.ok (evs, mfin)
      ∧ evs.map (fun e => (e.tag, e.step))
          = ((List.range epochs).filter (fun u => u % le.toNat == 0)).flatMap
              (fun u => [("Train Loss", u), ("Test Loss", u), ("Meta-Test Accuracy", u)]))
    ∧ logdir path num_classes = path ++ "/model/_" ++ toString num_classes ++ "_1" := by
  constructor
  · rw [List.range_eq_range']
    exact mainLoopFrom_events arch lf opt trl tel nb le h epochs 0 m
  · simp only [logdir]
    rw [(by decide : toString (1 : ℕ) = "1")]
    rw [String.append_assoc path ("/") ("model"),
        (by decide : ("/" : String) ++ "model" = "/model"),
        String.append_assoc path ("/model") ("/_"),
        (by decide : ("/model" : String) ++ "/_" = "/model/_"),
        String.append_assoc (path ++ "/model/_" ++ toString num_classes) ("_") ("1"),
        (by decide : ("_" : String) ++ "1" = "_1")]

/-- Witness for C6: the logging-directory format at a concrete path and
class count, obtained from the theorem at `log_every = 1`. -/
theorem logging_epochs_write_three_scalars_witness :
    logdir ("/w") 5 = "/w" ++ "/model/_" ++ toString 5 ++ "_1" :=
  (logging_epochs_write_three_scalars sampleArch sampleLoss sampleOpt
    [sampleBatch] [sampleBatch] 0 ("/w") 5 2 1 sampleModel (by decide)).2

/-- C7: `test` never modifies the model's parameters: for every
dataloader and model, the parameter vector of the model after `test`
equals the one before. -/
theorem test_preserves_params (arch : Arch) (dl : List Batch) (m : Model)
    (lf : List (List ℚ) → List ℕ → ℚ) (nb : ℕ) :
    (test arch dl m lf nb).2.params = m.params :=
  (testLoop_spec arch lf nb dl 0 m [] [] (by omega)).2.2

/-- C8: for `log_every ≥ 1` the test `t % log_every == 0` evaluates
without error, `main` runs `test` and logs exactly at the epochs
divisible by `log_every` — in particular always at epoch 0 — while for
`log_every = 0` the modulo raises `ZeroDivisionError` and the epoch
loop fails on its first epoch. -/
theorem logging_condition_and_zero_log_every (arch : Arch)
    (lf : List (List ℚ) → List ℕ → ℚ) (opt : Optimizer)
    (trl tel : List Batch) (nb : ℕ) (epochs : ℕ) (hep : 1 ≤ epochs)
    (t : ℕ) (le : ℤ) (hle : 1 ≤ le) (m : Model) :
    shouldLog t le = Except.ok (decide (t % le.toNat = 0))
    ∧ shouldLog 0 le = Except.ok true
    ∧ (∃ res, epochStep arch lf opt trl tel nb le t m = Except.ok res
        ∧ (res.1 ≠ [] ↔ t % le.toNat = 0))
    ∧ shouldLog t 0 = Except.error PyError.zeroDivisionError
    ∧ mainLoopFrom arch lf opt trl tel nb 0 0 epochs m
        = Except.error PyError.zeroDivisionError := by
  refine ⟨shouldLog_pos t le hle, ?_, ?_, shouldLog_zero_divisor t, ?_⟩
  · rw [shouldLog_pos 0 le hle]
    simp
  · by_cases hc : t % le.toNat = 0
    · have hd : decide (t % le.toNat = 0) = true := by simp [hc]
      refine ⟨([⟨"Train Loss", (train arch trl m lf opt nb).1, t⟩,
               ⟨"Test Loss", (test arch tel (train arch trl m lf opt nb).2 lf nb).1.2, t⟩,
               ⟨"Meta-Test Accuracy",
                (test arch tel (train arch trl m lf opt nb).2 lf nb).1.1, t⟩],
              (test arch tel (train arch trl m lf opt nb).2 lf nb).2), ?_, ?_⟩
      · simp only [epochStep, shouldLog_pos _ _ hle, hd]
      · simp [hc]
    · have hd : decide (t % le.toNat = 0) = false := by simp [hc]
      refine ⟨([], (train arch trl m lf opt nb).2), ?_, ?_⟩
      · simp only [epochStep, shouldLog_pos _ _ hle, hd]
      · simp [hc]
  · obtain ⟨ep, rfl⟩ : ∃ ep, epochs = ep + 1 := ⟨epochs - 1, by omega⟩
    simp only [mainLoopFrom, epochStep, shouldLog_zero_divisor]

/-- Witness for C8: at `log_every = 2`, epoch 3, and at
`log_every = 0`. -/
theorem logging_condition_and_zero_log_every_witness :
    shouldLog 3 2 = Except.ok (decide (3 % (2 : ℤ).toNat = 0))
    ∧ shouldLog 3 0 = Except.error PyError.zeroDivisionError :=
  ⟨(logging_condition_and_zero_log_every sampleArch sampleLoss sampleOpt
      [sampleBatch] [sampleBatch] 0 1 (by decide) 3 2 (by decide) sampleModel).1,
   (logging_condition_and_zero_log_every sampleArch sampleLoss sampleOpt
      [sampleBatch] [sampleBatch] 0 1 (by decide) 3 2 (by decide) sampleModel).2.2.2.1⟩

/-- C9: neither `train` nor `test` catches any exception: an error the
framework raises in the forward pass of the first batch propagates
unchanged out of `train` and out of `test` (over an abstract library
error type `ε`), and over a framework that never raises the fallible
loops compute exactly the total ones — the script adds no handling and
no error type of its own. -/
theorem errors_propagate_unhandled {ε : Type} (arch : ArchE ε)
    (lf : List (List ℚ) → List ℕ → ℚ) (opt : OptimizerE ε) (nb : ℕ)
    (b : Batch) (rest : List Batch) (m : Model) (e : ε)
    (hfail : arch.forward m.params b.support_x b.support_y b.query_x = Except.error e) :
    trainE arch (b :: rest) m lf opt nb = Except.error e
    ∧ testE arch (b :: rest) m lf nb = Except.error e
    ∧ (∀ (arch₀ : Arch) (opt₀ : Optimizer) (dl : List Batch) (m₀ : Model),
        trainE (liftArch (ε := ε) arch₀) dl m₀ lf (liftOpt opt₀) nb
            = Except.ok (train arch₀ dl m₀ lf opt₀ nb)
          ∧ testE (liftArch (ε := ε) arch₀) dl m₀ lf nb
            = Except.ok (test arch₀ dl m₀ lf nb)) := by
  refine ⟨?_, ?_, ?_⟩
  · unfold trainE trainLoopE
    simp only [zero_grad_params, hfail, Except.map]
  · unfold testE testLoopE
    simp only [zero_grad_params, hfail, Except.map]
  · intro arch₀ opt₀ dl m₀
    constructor
    · unfold trainE train
      rw [trainLoopE_lift]
      rfl
    · unfold testE test
      rw [testLoopE_lift]
      rfl

/-- Witness for C9: a framework whose forward pass raises error `7` on
every call makes `trainE` return exactly that error. -/
theorem errors_propagate_unhandled_witness :
    trainE failArch [sampleBatch] sampleModel sampleLoss okOpt 0 = Except.error 7 :=
  (errors_propagate_unhandled failArch sampleLoss okOpt 0 sampleBatch [] sampleModel 7
    rfl).1

end MetaLearnProto
